import Mathlib

/-!
Shallow embedding of `ffmpeg_progress.py`.

Conventions used throughout:
* Python byte/text lines are modelled as `List Char`; the `bytes.decode("ascii",
  "ignore")` step is modelled by dropping characters with code point ≥ 128.
* Python floats are modelled as exact rationals (`ℚ`); every arithmetic
  operation performed by the script on these values is translated verbatim.
* Fallible Python operations (dictionary lookup, `float(...)`, tuple
  unpacking of `str.split` results) become `Option`-valued functions, and a
  raised exception becomes an explicit `raised` outcome.
-/

namespace FfmpegProgress

/-- Python exceptions raised by the modelled code paths. -/
inductive PyError
  | keyError
  | valueError
  | zeroDivisionError
  | ioErrorNeverReadDuration
  | ioErrorNotFinished
  deriving DecidableEq, Repr

/-- Values stored in the progress-info dictionary built by `ffmpegThread.run`:
string values straight off the progress channel, plus the float stored under
the reserved key by `process_info` (`info["done"] = ...`). -/
inductive PyVal
  | str (s : String)
  | num (q : ℚ)
  deriving DecidableEq

/-- The ordered `info` dictionary (insertion order, unique keys). -/
abbrev Dict := List (String × PyVal)

/-- Python dictionary read access `info[k]` (`none` means `KeyError`). -/
def lookup? (k : String) : Dict → Option PyVal
  | [] => none
  | (k2, v) :: rest => if k2 = k then some v else lookup? k rest

/-- Python dictionary write access `info[k] = v`: overwrite in place keeping
the key position, or append a fresh key at the end. -/
def setKey (k : String) (v : PyVal) : Dict → Dict
  | [] => [(k, v)]
  | (k2, v2) :: rest => if k2 = k then (k2, v) :: rest else (k2, v2) :: setKey k v rest

/-- Accumulator for decimal digit strings. -/
def natOfDigitsAux (acc : Nat) : List Char → Nat
  | [] => acc
  | c :: cs => natOfDigitsAux (acc * 10 + (c.toNat - 48)) cs

/-- Python `float(s)` restricted to the strings that can reach it in
`input_duration` (runs of decimal digits, produced by splitting the regex
group).  An empty or non-digit string raises `ValueError`, hence `none`. -/
def natOfDigits? (l : List Char) : Option Nat :=
  if l ≠ [] ∧ l.all Char.isDigit then some (natOfDigitsAux 0 l) else none

/-- Python `float("0." + s)` as used for the fractional part in
`input_duration`; an empty `s` yields `0.0` (Python accepts `float("0.")`). -/
def fracOfDigits? (l : List Char) : Option ℚ :=
  if l.all Char.isDigit then some ((natOfDigitsAux 0 l : ℚ) / 10 ^ l.length) else none

/-- Python `float(s)` for the (optionally sign-prefixed) integer strings that
ffmpeg emits for `out_time_ms`. -/
def pyFloatOfStr? (s : String) : Option ℚ :=
  match s.data with
  | '-' :: ds => (natOfDigits? ds).map (fun n => -(n : ℚ))
  | ds => (natOfDigits? ds).map (fun n => (n : ℚ))

/-- Python `float(v)` applied to a dictionary value. -/
def pyFloatOfVal? : PyVal → Option ℚ
  | .str s => pyFloatOfStr? s
  | .num q => some q

/-- Python `str.split(sep)` (no maxsplit): all fields, empty fields kept. -/
def splitOnChar (sep : Char) : List Char → List (List Char)
  | [] => [[]]
  | c :: cs =>
    if c = sep then [] :: splitOnChar sep cs
    else
      match splitOnChar sep cs with
      | [] => [[c]]
      | g :: gs => (c :: g) :: gs

/-- Python `line.split("=", 1)` followed by the two-name unpacking in
`ffmpegThread.run`: `none` when the separator is absent (the unpacking then
raises `ValueError`). -/
def splitOnceEq : List Char → Option (List Char × List Char)
  | [] => none
  | c :: cs =>
    if c = '=' then some ([], cs)
    else (splitOnceEq cs).map (fun p => (c :: p.1, p.2))

/-- Match a literal at the head of the input, returning the remainder. -/
def dropLit : List Char → List Char → Option (List Char)
  | [], rest => some rest
  | _ :: _, [] => none
  | p :: ps, c :: cs => if c = p then dropLit ps cs else none

/-- The literal part of `duration_re = re.compile(r"Duration: ([0-9:\.]+),")`. -/
def durMark : List Char := ['D', 'u', 'r', 'a', 't', 'i', 'o', 'n', ':', ' ']

/-- The character class `[0-9:\.]` of `duration_re`. -/
def isDurClass (c : Char) : Bool := c.isDigit || c == ':' || c == '.'

/-- Attempt of `duration_re` at one start position: the literal, then a
nonempty greedy run of class characters, then a comma.  (A failed comma can
never be repaired by backtracking, since the comma is outside the class, so
failure here makes `re.search` advance one position.) -/
def tryDurAt (l : List Char) : Option (List Char) :=
  match dropLit durMark l with
  | none => none
  | some rest =>
    match rest.takeWhile isDurClass, (rest.dropWhile isDurClass).head? with
    | [], _ => none
    | _ :: _, none => none
    | g :: gs, some ch => if ch = ',' then some (g :: gs) else none

/-- `duration_re.search(line)`: leftmost match of the capture group. -/
def find_duration_group : List Char → Option (List Char)
  | [] => none
  | c :: cs =>
    match tryDurAt (c :: cs) with
    | some g => some g
    | none => find_duration_group cs

/-- The conversion in `ffmpegThread.input_duration` (lines 70-76): split the
group at `"."` into exactly two parts, the fraction via `float("0." + p)`,
the time part at `":"` into exactly three fields, and combine as
`hours*3600 + minutes*60 + seconds + fraction`.  Any failed split arity or
`float` conversion raises `ValueError`, hence `none`. -/
def duration_of_group (g : List Char) : Option ℚ :=
  match splitOnChar '.' g with
  | [tpart, fpart] =>
    match fracOfDigits? fpart with
    | none => none
    | some frac =>
      match splitOnChar ':' tpart with
      | [hs, ms, ss] =>
        match natOfDigits? hs, natOfDigits? ms, natOfDigits? ss with
        | some h, some m, some s => some ((h : ℚ) * 3600 + (m : ℚ) * 60 + (s : ℚ) + frac)
        | _, _, _ => none
      | _ => none
  | _ => none

/-- One diagnostic line as processed by the body of the `input_duration`
loop: regex search, then conversion on a match. -/
def input_duration_of_line (l : List Char) : Option ℚ :=
  (find_duration_group l).bind duration_of_group

/-- A callback invocation made by `indicate_progress` (lines 49-54):
`progress_f(done)` or `info_f(info)`. -/
inductive Event
  | progressCall (ratio : ℚ)
  | infoCall (info : Dict)
  deriving DecidableEq

/-- The ratios passed to `progress_f`, in order. -/
def progressRatios (evs : List Event) : List ℚ :=
  evs.filterMap (fun e =>
    match e with
    | .progressCall r => some r
    | _ => none)

/-- The dictionaries passed to `info_f`, in order. -/
def infoDicts (evs : List Event) : List Dict :=
  evs.filterMap (fun e =>
    match e with
    | .infoCall i => some i
    | _ => none)

/-- Result of a modelled code path: normal value, raised exception, or the
path in `process_info` that evaluates `self.input_duration` while the
duration is still unresolved (which blocks or raises inside the accessor and
is outside the straight-line model). -/
inductive Outcome (α : Type)
  | ok (a : α)
  | raised (e : PyError)
  | durationUnresolved
  deriving DecidableEq

/-- Project the events out of a normally-completed outcome. -/
def okEvents : Outcome (List Event) → Option (List Event)
  | .ok evs => some evs
  | _ => none

/-- `ffmpegThread.process_info` (lines 81-87).  `d` is the state of
`self._input_duration` at the moment `self.input_duration` would be read.
The unguarded `info["out_time_ms"]` lookup raises `KeyError` when the key is
absent; `float(...)` raises `ValueError` on an unparsable value; for a
strictly positive value the ratio `out_time_ms / 1000000 / input_duration`
is stored under the reserved key and both callbacks fire (progress first). -/
def process_info (d : Option ℚ) (info : Dict) : Outcome (List Event) :=
  match lookup? ("out_time_ms") info with
  | none => .raised .keyError
  | some v =>
    match pyFloatOfVal? v with
    | none => .raised .valueError
    | some t =>
      if 0 < t then
        match d with
        | none => .durationUnresolved
        | some dd =>
          if dd = 0 then .raised .zeroDivisionError
          else
            .ok [Event.progressCall (t / 1000000 / dd),
                 Event.infoCall (setKey ("done") (PyVal.num (t / 1000000 / dd)) info)]
      else .ok []

/-- Python `bytes.strip()` whitespace predicate. -/
def isPyWs (c : Char) : Bool :=
  c == ' ' || c == '\t' || c == '\n' || c == '\r' || c.toNat == 11 || c.toNat == 12

/-- Python `bytes.strip()`. -/
def pyStrip (l : List Char) : List Char :=
  ((l.dropWhile isPyWs).reverse.dropWhile isPyWs).reverse

/-- `line.decode("ascii", "ignore")`: drop non-ASCII characters. -/
def decodeChars (l : List Char) : List Char :=
  l.filter (fun c => c.toNat < 128)

/-- The stdout drain loop of `ffmpegThread.run` (lines 97-108).  The input
list holds the lines `readline()` yields before EOF (at EOF `readline`
returns empty bytes, which strip to the falsy empty line and break the
loop, exactly like an explicit blank line). -/
def run_loop (d : Option ℚ) : List (List Char) → Dict → Outcome (List Event)
  | [], _ => .ok []
  | line :: rest, info =>
    let s := pyStrip line
    if s = [] then .ok []
    else
      match splitOnceEq (decodeChars s) with
      | none => .raised .valueError
      | some (k, v) =>
        let key := String.mk k
        let info2 := setKey key (.str (String.mk v)) info
        if key = ("progress") then
          match process_info d info2 with
          | .ok evs =>
            match run_loop d rest [] with
            | .ok more => .ok (evs ++ more)
            | other => other
          | other => other
        else run_loop d rest info2

/-- What `run` leaves behind on normal completion (lines 111-113):
`self.exitcode = self.ffmpeg.poll()` and `self.stderr = self.ffmpeg.stderr.read()`. -/
structure RunResult where
  events : List Event
  exitcode : Option Int
  stderrBuf : List Nat
  deriving DecidableEq

/-- `ffmpegThread.run` after the subprocess spawn: drain the progress
channel, then record `poll()` (which yields `none` when the subprocess has
not yet exited at that moment — the code polls, it does not wait) and the
remaining stderr bytes.  A raised exception aborts before anything is
recorded. -/
def run (d : Option ℚ) (stdoutLines : List (List Char)) (pollResult : Option Int)
    (stderrRest : List Nat) : Outcome RunResult :=
  match run_loop d stdoutLines [] with
  | .ok evs => .ok ⟨evs, pollResult, stderrRest⟩
  | .raised e => .raised e
  | .durationUnresolved => .durationUnresolved

/-- `FFMPEGError` (lines 12-20).  The `exitcode` field holds whatever
`run` recorded, i.e. the `poll()` result. -/
structure FFMPEGError where
  exitcode : Option Int
  stderr : List Nat
  deriving DecidableEq

/-- `bytes.decode("ascii", "ignore")` on a raw byte buffer. -/
def decodeAsciiIgnore (bs : List Nat) : String :=
  String.mk (bs.filterMap (fun b => if b < 128 then some (Char.ofNat b) else none))

/-- `FFMPEGError.__str__` (lines 19-20). -/
def ffmpegErrorStr (e : FFMPEGError) : String := decodeAsciiIgnore e.stderr

/-- Python truthiness of the recorded `self.exitcode` value. -/
def truthy : Option Int → Bool
  | none => false
  | some n => n != 0

/-- The `ffmpegThread.exception` property (lines 115-123).  `recorded` is
`none` when the `exitcode` attribute does not exist yet (`hasattr` fails,
the property raises `IOError`), and `some ec` once `run` stored the poll
result `ec`. -/
def exception (recorded : Option (Option Int)) (stderrBuf : List Nat) :
    Except PyError (Option FFMPEGError) :=
  match recorded with
  | none => .error .ioErrorNotFinished
  | some ec => if truthy ec then .ok (some ⟨ec, stderrBuf⟩) else .ok none

/-- State of the `input_duration` polling loop after a bounded number of
iterations. -/
inductive LoopResult
  | outOfFuel
  | raised (e : PyError)
  | found (d : ℚ) (rest : List (List Char))
  deriving DecidableEq

/-- The `while True` loop of `ffmpegThread.input_duration` (lines 62-77),
with one unit of fuel per iteration.  The list holds the stderr lines still
to be read; once it is exhausted `readline()` returns empty bytes on every
further call (Python file-object EOF behaviour), which never match the
regex, so the loop keeps spinning.  (`stderr.readable()` is always true for
a pipe reader, so the `time.sleep` branch is dead code.)  A regex match
whose group fails the conversion raises `ValueError` out of the property. -/
def duration_loop : Nat → List (List Char) → LoopResult
  | 0, _ => .outOfFuel
  | n + 1, [] => duration_loop n []
  | n + 1, l :: rest =>
    match find_duration_group l with
    | none => duration_loop n rest
    | some g =>
      match duration_of_group g with
      | none => .raised .valueError
      | some d => .found d rest

/-- Observable result of one call to the `input_duration` accessor. -/
inductive DurationResult
  | value (d : ℚ)
  | raised (e : PyError)
  | stillLooping
  deriving DecidableEq

/-- The `ffmpegThread.input_duration` property (lines 56-79): return the
cached value if present; raise `IOError` if `self.ffmpeg` is `None`;
otherwise poll the stderr lines.  `stillLooping` means the loop has not
produced anything after `fuel` iterations. -/
def input_duration (cached : Option ℚ) (handle : Option (List (List Char)))
    (fuel : Nat) : DurationResult :=
  match cached with
  | some d => .value d
  | none =>
    match handle with
    | none => .raised .ioErrorNeverReadDuration
    | some lines =>
      match duration_loop fuel lines with
      | .outOfFuel => .stillLooping
      | .raised e => .raised e
      | .found d _ => .value d

/-! ## Helper lemmas -/

theorem natOfDigits?_spec (l : List Char) (n : Nat) (h : natOfDigits? l = some n) :
    l ≠ [] ∧ (∀ c ∈ l, c.isDigit = true) := by
  by_cases hc : l ≠ [] ∧ l.all Char.isDigit
  · exact ⟨hc.1, fun c hcl => List.all_eq_true.mp hc.2 c hcl⟩
  · rw [natOfDigits?, if_neg hc] at h
    exact absurd h (by simp)

theorem digit_not_dot (c : Char) (h : c.isDigit = true) : c ≠ '.' := by
  intro hc
  subst hc
  simp [Char.isDigit] at h

theorem digit_not_colon (c : Char) (h : c.isDigit = true) : c ≠ ':' := by
  intro hc
  subst hc
  simp [Char.isDigit] at h

theorem digit_durClass (c : Char) (h : c.isDigit = true) : isDurClass c = true := by
  simp [isDurClass, h]

theorem splitOnChar_of_not_mem (sep : Char) (l : List Char) (h : ∀ c ∈ l, c ≠ sep) :
    splitOnChar sep l = [l] := by
  induction l with
  | nil => rfl
  | cons c cs ih =>
    have hc : c ≠ sep := h c (by simp)
    have ih2 := ih (fun c2 h2 => h c2 (by simp [h2]))
    simp [splitOnChar, hc, ih2]

theorem splitOnChar_append (sep : Char) (l r : List Char) (h : ∀ c ∈ l, c ≠ sep) :
    splitOnChar sep (l ++ sep :: r) = l :: splitOnChar sep r := by
  induction l with
  | nil => simp [splitOnChar]
  | cons c cs ih =>
    have hc : c ≠ sep := h c (by simp)
    have ih2 := ih (fun c2 h2 => h c2 (by simp [h2]))
    simp [splitOnChar, hc, ih2]

theorem dropLit_append_self (p r : List Char) : dropLit p (p ++ r) = some r := by
  induction p with
  | nil => rfl
  | cons c cs ih => simp [dropLit, ih]

theorem takeWhile_append_all (p : Char → Bool) (g : List Char) (x : Char) (r : List Char)
    (hg : ∀ c ∈ g, p c = true) (hx : p x = false) :
    (g ++ x :: r).takeWhile p = g := by
  induction g with
  | nil => simp [List.takeWhile, hx]
  | cons c cs ih =>
    have hc : p c = true := hg c (by simp)
    simp [List.takeWhile, hc, ih (fun c2 h2 => hg c2 (by simp [h2]))]

theorem dropWhile_append_all (p : Char → Bool) (g : List Char) (x : Char) (r : List Char)
    (hg : ∀ c ∈ g, p c = true) (hx : p x = false) :
    (g ++ x :: r).dropWhile p = x :: r := by
  induction g with
  | nil => simp [List.dropWhile, hx]
  | cons c cs ih =>
    have hc : p c = true := hg c (by simp)
    simp [List.dropWhile, hc, ih (fun c2 h2 => hg c2 (by simp [h2]))]

theorem tryDurAt_none_of_ne (c : Char) (cs : List Char) (h : c ≠ 'D') :
    tryDurAt (c :: cs) = none := by
  simp [tryDurAt, durMark, dropLit, h]

theorem find_duration_group_cons_ne (c : Char) (cs : List Char) (h : c ≠ 'D') :
    find_duration_group (c :: cs) = find_duration_group cs := by
  simp [find_duration_group, tryDurAt_none_of_ne c cs h]

theorem find_duration_group_skip (pre l : List Char) (h : ∀ c ∈ pre, c ≠ 'D') :
    find_duration_group (pre ++ l) = find_duration_group l := by
  induction pre with
  | nil => simp
  | cons c cs ih =>
    have hc : c ≠ 'D' := h c (by simp)
    rw [List.cons_append, find_duration_group_cons_ne c _ hc]
    exact ih (fun c2 h2 => h c2 (by simp [h2]))

theorem tryDurAt_hit (g tail : List Char) (hg : g ≠ [])
    (hcls : ∀ c ∈ g, isDurClass c = true) :
    tryDurAt (durMark ++ (g ++ ',' :: tail)) = some g := by
  have hcomma : isDurClass ',' = false := by decide
  have htake := takeWhile_append_all isDurClass g ',' tail hcls hcomma
  have hdrop := dropWhile_append_all isDurClass g ',' tail hcls hcomma
  cases g with
  | nil => exact absurd rfl hg
  | cons c cs =>
    simp only [tryDurAt, dropLit_append_self, htake, hdrop, List.head?]
    rfl

theorem find_duration_group_hit (pre g tail : List Char)
    (hpre : ∀ c ∈ pre, c ≠ 'D') (hg : g ≠ [])
    (hcls : ∀ c ∈ g, isDurClass c = true) :
    find_duration_group (pre ++ durMark ++ (g ++ ',' :: tail)) = some g := by
  rw [List.append_assoc, find_duration_group_skip pre _ hpre]
  have : durMark ++ (g ++ ',' :: tail)
      = 'D' :: (durMark.tail ++ (g ++ ',' :: tail)) := by rfl
  rw [this, find_duration_group]
  rw [← this, tryDurAt_hit g tail hg hcls]

theorem duration_of_group_eq (hs ms ss fs : List Char) (h m s f : Nat)
    (hh : natOfDigits? hs = some h) (hm : natOfDigits? ms = some m)
    (hsec : natOfDigits? ss = some s) (hf : natOfDigits? fs = some f) :
    duration_of_group (hs ++ (':' :: (ms ++ (':' :: (ss ++ ('.' :: fs))))))
      = some ((h : ℚ) * 3600 + (m : ℚ) * 60 + (s : ℚ) + (f : ℚ) / 10 ^ fs.length) := by
  obtain ⟨hhne, hhd⟩ := natOfDigits?_spec hs h hh
  obtain ⟨hmne, hmd⟩ := natOfDigits?_spec ms m hm
  obtain ⟨hsne, hsd⟩ := natOfDigits?_spec ss s hsec
  obtain ⟨hfne, hfd⟩ := natOfDigits?_spec fs f hf
  have hnodot : ∀ c ∈ hs ++ (':' :: (ms ++ (':' :: ss))), c ≠ '.' := by
    intro c hc hdot
    subst hdot
    have h1 : ('.') ∉ hs := fun hmem => digit_not_dot _ (hhd _ hmem) rfl
    have h2 : ('.') ∉ ms := fun hmem => digit_not_dot _ (hmd _ hmem) rfl
    have h3 : ('.') ∉ ss := fun hmem => digit_not_dot _ (hsd _ hmem) rfl
    have h4 : ('.' : Char) ≠ ':' := by decide
    simp [h1, h2, h3, h4] at hc
  have hshape : hs ++ (':' :: (ms ++ (':' :: (ss ++ ('.' :: fs)))))
      = (hs ++ (':' :: (ms ++ (':' :: ss)))) ++ '.' :: fs := by
    simp
  have hsplit1 : splitOnChar '.' (hs ++ (':' :: (ms ++ (':' :: (ss ++ ('.' :: fs))))))
      = [hs ++ (':' :: (ms ++ (':' :: ss))), fs] := by
    rw [hshape, splitOnChar_append '.' _ fs hnodot,
      splitOnChar_of_not_mem '.' fs (fun c hc => digit_not_dot c (hfd c hc))]
  have hall : fs.all Char.isDigit = true := List.all_eq_true.mpr hfd
  have hfrac : fracOfDigits? fs = some ((f : ℚ) / 10 ^ fs.length) := by
    have hval : natOfDigitsAux 0 fs = f := by
      have h2 := hf
      rw [natOfDigits?, if_pos ⟨hfne, hall⟩] at h2
      exact Option.some.inj h2
    simp [fracOfDigits?, hall, hval]
  have hsplit2 : splitOnChar ':' (hs ++ (':' :: (ms ++ (':' :: ss)))) = [hs, ms, ss] := by
    rw [splitOnChar_append ':' hs _ (fun c hc => digit_not_colon c (hhd c hc)),
      splitOnChar_append ':' ms _ (fun c hc => digit_not_colon c (hmd c hc)),
      splitOnChar_of_not_mem ':' ss (fun c hc => digit_not_colon c (hsd c hc))]
  simp only [duration_of_group, hsplit1, hfrac, hsplit2, hh, hm, hsec]

theorem splitOnceEq_eq_none (l : List Char) (h : ('=') ∉ l) : splitOnceEq l = none := by
  induction l with
  | nil => rfl
  | cons c cs ih =>
    have hc : c ≠ '=' := by
      intro hcc
      exact h (by simp [hcc])
    have ih2 := ih (fun hm => h (by simp [hm]))
    simp [splitOnceEq, hc, ih2]

/-! ## Claim theorems -/

/-- Claim C4: for a diagnostic-stream line matching `Duration: H:MM:SS.cc,`
(digit fields parsing to `h`, `m`, `s` and fraction digits `fs` parsing to
`f`), the extracted input duration is exactly
`hours * 3600 + minutes * 60 + seconds + fractional`. -/
theorem duration_extraction_correct
    (pre hs ms ss fs tail : List Char) (h m s f : Nat)
    (hpre : ∀ c ∈ pre, c ≠ 'D')
    (hh : natOfDigits? hs = some h) (hm : natOfDigits? ms = some m)
    (hsec : natOfDigits? ss = some s) (hf : natOfDigits? fs = some f) :
    input_duration_of_line
        (pre ++ durMark
          ++ ((hs ++ (':' :: (ms ++ (':' :: (ss ++ ('.' :: fs)))))) ++ ',' :: tail))
      = some ((h : ℚ) * 3600 + (m : ℚ) * 60 + (s : ℚ) + (f : ℚ) / 10 ^ fs.length) := by
  obtain ⟨hhne, hhd⟩ := natOfDigits?_spec hs h hh
  obtain ⟨-, hmd⟩ := natOfDigits?_spec ms m hm
  obtain ⟨-, hsd⟩ := natOfDigits?_spec ss s hsec
  obtain ⟨-, hfd⟩ := natOfDigits?_spec fs f hf
  have hg : (hs ++ (':' :: (ms ++ (':' :: (ss ++ ('.' :: fs)))))) ≠ [] := by
    cases hs with
    | nil => exact absurd rfl hhne
    | cons c cs => simp
  have hcls : ∀ c ∈ hs ++ (':' :: (ms ++ (':' :: (ss ++ ('.' :: fs))))),
      isDurClass c = true := by
    intro c hc
    simp only [List.mem_append, List.mem_cons] at hc
    rcases hc with hx | hx | hx | hx | hx | hx | hx
    · exact digit_durClass c (hhd c hx)
    · subst hx; decide
    · exact digit_durClass c (hmd c hx)
    · subst hx; decide
    · exact digit_durClass c (hsd c hx)
    · subst hx; decide
    · exact digit_durClass c (hfd c hx)
  simp only [input_duration_of_line,
    find_duration_group_hit pre _ tail hpre hg hcls, Option.some_bind,
    duration_of_group_eq hs ms ss fs h m s f hh hm hsec hf]

/-- Witness for C4 at the concrete instance from the spec: a line carrying
`Duration: 01:02:03.50,` yields `3723.5` seconds. -/
theorem duration_extraction_correct_witness :
    input_duration_of_line (("  Duration: 01:02:03.50, start: 0.000000").data)
      = some ((7447 : ℚ) / 2) := by
  have he : ("  Duration: 01:02:03.50, start: 0.000000").data
      = (' ' :: [' ']) ++ durMark
        ++ ((('0' :: ['1']) ++ (':' :: (('0' :: ['2'])
            ++ (':' :: (('0' :: ['3']) ++ ('.' :: ('5' :: ['0'])))))))
          ++ ',' :: ((" start: 0.000000").data)) := by decide
  rw [he, duration_extraction_correct (' ' :: [' ']) ('0' :: ['1']) ('0' :: ['2'])
    ('0' :: ['3']) ('5' :: ['0']) ((" start: 0.000000").data) 1 2 3 50
    (by decide) (by decide) (by decide) (by decide) (by decide)]
  norm_num

/-- Claim C1: for a completed progress block whose `out_time_ms` entry
parses to `t`, with the input duration resolved to `d > 0`, the progress
callback fires exactly when `t` is strictly positive, and then with the
ratio `t / 1000000 / d` exactly as computed (no clamping); a zero or
negative value fires nothing. -/
theorem onProgress_iff_positive (d t : ℚ) (info : Dict) (sv : String)
    (hl : lookup? ("out_time_ms") info = some (PyVal.str sv))
    (hp : pyFloatOfStr? sv = some t) (hd : 0 < d) :
    (okEvents (process_info (some d) info)).map progressRatios
      = some (if 0 < t then [t / 1000000 / d] else []) := by
  have hd0 : ¬ (d = 0) := ne_of_gt hd
  by_cases ht : 0 < t <;>
    simp [process_info, hl, pyFloatOfVal?, hp, hd0, ht, okEvents, progressRatios]

/-- Witness for C1: the spec's end-to-end block `out_time_ms=500000` with
duration 10 fires the progress callback once with ratio `0.05`. -/
theorem onProgress_iff_positive_witness :
    (okEvents (process_info (some 10)
        [(("out_time_ms"), PyVal.str ("500000")),
         (("progress"), PyVal.str ("continue"))])).map progressRatios
      = some (if (0 : ℚ) < 500000 then [(500000 : ℚ) / 1000000 / 10] else []) :=
  onProgress_iff_positive 10 500000
    [(("out_time_ms"), PyVal.str ("500000")), (("progress"), PyVal.str ("continue"))]
    ("500000") (by decide) (by decide) (by decide)

/-- Claim C2 counterexample: a completed block whose `out_time_ms` is zero
fires the info callback zero times, not once — the callback is not fired
"regardless of ratio availability". -/
theorem onInfo_not_fired_without_ratio :
    (okEvents (process_info (some 10)
        [(("out_time_ms"), PyVal.str ("0")), (("progress"), PyVal.str ("end"))])).map
        (fun evs => (infoDicts evs).length) = some 0
    ∧ ¬ ((okEvents (process_info (some 10)
        [(("out_time_ms"), PyVal.str ("0")), (("progress"), PyVal.str ("end"))])).map
        (fun evs => (infoDicts evs).length) = some 1) := by
  decide

/-- Claim C2 amended: the info callback fires for a completed block exactly
when the block's `out_time_ms` is strictly positive (the same condition as
the progress callback), and then exactly once, with the full decoded
mapping plus the ratio merged under the reserved key `done`; for zero or
negative `out_time_ms` neither callback fires. -/
theorem onInfo_iff_positive (d t : ℚ) (info : Dict) (sv : String)
    (hl : lookup? ("out_time_ms") info = some (PyVal.str sv))
    (hp : pyFloatOfStr? sv = some t) (hd : 0 < d) :
    (okEvents (process_info (some d) info)).map infoDicts
      = some (if 0 < t
          then [setKey ("done") (PyVal.num (t / 1000000 / d)) info] else []) := by
  have hd0 : ¬ (d = 0) := ne_of_gt hd
  by_cases ht : 0 < t <;>
    simp [process_info, hl, pyFloatOfVal?, hp, hd0, ht, okEvents, infoDicts]

/-- Witness for the amended C2: the positive block fires the info callback
once with `done` merged in; the zero block fires it not at all. -/
theorem onInfo_iff_positive_witness :
    (okEvents (process_info (some 10)
        [(("out_time_ms"), PyVal.str ("500000")),
         (("progress"), PyVal.str ("continue"))])).map infoDicts
      = some (if (0 : ℚ) < 500000
          then [setKey ("done") (PyVal.num ((500000 : ℚ) / 1000000 / 10))
                  [(("out_time_ms"), PyVal.str ("500000")),
                   (("progress"), PyVal.str ("continue"))]]
          else []) :=
  onInfo_iff_positive 10 500000
    [(("out_time_ms"), PyVal.str ("500000")), (("progress"), PyVal.str ("continue"))]
    ("500000") (by decide) (by decide) (by decide)

/-- Claim C3: once an integer exit status is recorded, the terminal error
value is present iff the status is non-zero; when present it carries
exactly that status and the full stderr buffer, and its string form is the
ascii-ignore decoding of that buffer. -/
theorem terminal_error_iff_nonzero (ec : Int) (st : List Nat) :
    (exception (some (some ec)) st = Except.ok none ↔ ec = 0)
    ∧ (ec ≠ 0 → exception (some (some ec)) st = Except.ok (some ⟨some ec, st⟩))
    ∧ ffmpegErrorStr ⟨some ec, st⟩ = decodeAsciiIgnore st := by
  refine ⟨?_, ?_, rfl⟩
  · by_cases h : ec = 0
    · subst h
      simp [exception, truthy]
    · simp [exception, truthy, h]
  · intro h
    simp [exception, truthy, h]

/-- Witness for C3 at the spec's end-to-end instance: exit status 1 with
stderr bytes `"fatal error"` yields an error with status 1 whose string
form is `"fatal error"`. -/
theorem terminal_error_iff_nonzero_witness :
    exception (some (some 1)) ([102, 97, 116, 97, 108, 32, 101, 114, 114, 111, 114])
      = Except.ok (some ⟨some 1, [102, 97, 116, 97, 108, 32, 101, 114, 114, 111, 114]⟩)
    ∧ ffmpegErrorStr ⟨some 1, [102, 97, 116, 97, 108, 32, 101, 114, 114, 111, 114]⟩
      = ("fatal error") :=
  ⟨(terminal_error_iff_nonzero 1 _).2.1 (by decide), by decide⟩

/-- Claim C5 (code bug): when the diagnostic stream runs out without any
line matching the duration pattern, the accessor loop never produces a
result no matter how many iterations it runs — at EOF `readline` keeps
returning empty bytes, which never match, so the loop spins forever
instead of delivering a defined error. -/
theorem duration_loop_never_returns (lines : List (List Char))
    (h : ∀ l ∈ lines, find_duration_group l = none) :
    ∀ n, duration_loop n lines = LoopResult.outOfFuel := by
  intro n
  induction n generalizing lines with
  | zero => rfl
  | succ n ih =>
    cases lines with
    | nil => exact ih [] (by simp)
    | cons l rest =>
      have hl : find_duration_group l = none := h l (by simp)
      simp only [duration_loop, hl]
      exact ih rest (fun l2 h2 => h l2 (by simp [h2]))

/-- Witness for C5: a stream holding one ordinary log line and no duration
marker leaves the loop spinning after 1000 iterations. -/
theorem duration_loop_never_returns_witness :
    duration_loop 1000 ((("frame=12 fps=0 q=0.0 size=0kB").data) :: [])
      = LoopResult.outOfFuel :=
  duration_loop_never_returns _ (by decide) 1000

/-- Claim C6: querying the input duration after the subprocess handle has
been torn down, with no duration ever resolved, raises the IOError — never
a stale or default value, whatever the iteration budget. -/
theorem duration_query_after_teardown :
    ∀ fuel : Nat, input_duration none none fuel
      = DurationResult.raised PyError.ioErrorNeverReadDuration :=
  fun _ => rfl

/-- Claim C7 counterexample: before any exit status is recorded, the
exception query raises IOError — it does not return None as claimed. -/
theorem exception_before_exit_raises :
    exception none [] = Except.error PyError.ioErrorNotFinished
    ∧ ¬ (exception none [] = Except.ok none) := by
  constructor
  · rfl
  · intro h
    simp [exception] at h

/-- Claim C7 amended: querying terminal state before an exit status is
recorded raises IOError (rather than returning None); after recording, the
query returns the error value when the recorded status is non-zero and
None when it is zero. -/
theorem exception_query_semantics (ec : Int) (st : List Nat) :
    exception none st = Except.error PyError.ioErrorNotFinished
    ∧ (ec ≠ 0 → exception (some (some ec)) st = Except.ok (some ⟨some ec, st⟩))
    ∧ (ec = 0 → exception (some (some ec)) st = Except.ok none) := by
  refine ⟨rfl, ?_, ?_⟩
  · intro h
    simp [exception, truthy, h]
  · intro h
    subst h
    simp [exception, truthy]

/-- Witness for the amended C7 at statuses 2 and 0. -/
theorem exception_query_semantics_witness :
    exception (some (some 2)) [] = Except.ok (some ⟨some 2, []⟩)
    ∧ exception (some (some 0)) [] = Except.ok none :=
  ⟨(exception_query_semantics 2 []).2.1 (by decide),
   (exception_query_semantics 0 []).2.2 rfl⟩

/-- Claim C8 counterexample: a non-blank progress line without an equals
separator makes the drain loop raise ValueError (the two-name unpacking of
the split fails), rather than stopping gracefully. -/
theorem malformed_line_raises :
    run (some 1) ((("garbage").data) :: []) (some 0) []
      = Outcome.raised PyError.valueError := by
  rfl

/-- Claim C8 amended: a blank (empty or whitespace-only) line stops
decoding gracefully as the end-of-stream signal, but a non-blank line
lacking the equals separator raises ValueError, aborting `run` before the
exit status and stderr buffer are recorded. -/
theorem separator_missing_semantics (d : Option ℚ) (l l2 : List Char)
    (rest rest2 : List (List Char)) (p p2 : Option Int) (sb sb2 : List Nat)
    (hblank : pyStrip l = [])
    (hnb : ¬ (pyStrip l2 = [])) (hnoeq : ('=') ∉ decodeChars (pyStrip l2)) :
    run d (l :: rest) p sb = Outcome.ok ⟨[], p, sb⟩
    ∧ run d (l2 :: rest2) p2 sb2 = Outcome.raised PyError.valueError := by
  constructor
  · simp [run, run_loop, hblank]
  · have hs := splitOnceEq_eq_none _ hnoeq
    simp [run, run_loop, hnb, hs]

/-- Witness for the amended C8: a whitespace line ends the run cleanly,
ignoring later lines; a separator-less line raises. -/
theorem separator_missing_semantics_witness :
    run (some 1) (((" ").data) :: (("a=b").data) :: []) (some 0) []
      = Outcome.ok ⟨[], some 0, []⟩
    ∧ run (some 1) ((("noise line").data) :: []) none []
      = Outcome.raised PyError.valueError :=
  separator_missing_semantics (some 1) ((" ").data) (("noise line").data)
    ((("a=b").data) :: []) [] (some 0) none [] [] (by decide) (by decide) (by decide)

/-- Claim C9 (code bug): `run` records the exit status via a non-blocking
poll at progress-channel closure rather than waiting for exit; when the
subprocess has not yet exited at that moment, `run` completes normally and
records None — a non-integer, recorded while the subprocess still runs. -/
theorem exitcode_recorded_by_poll_before_exit :
    run (some 1) [] none [] = Outcome.ok ⟨[], none, []⟩
    ∧ (⟨[], none, []⟩ : RunResult).exitcode = none :=
  ⟨rfl, rfl⟩

/-- Claim C10: a completed block whose mapping lacks `out_time_ms` makes
the unguarded lookup in `process_info` raise KeyError, which escapes the
drain loop and aborts `run` before the exit status and stderr buffer are
recorded; when the block carries a parsable `out_time_ms`, the KeyError
branch is unreachable. -/
theorem out_time_ms_required :
    (∀ (d : Option ℚ) (info : Dict), lookup? ("out_time_ms") info = none →
      process_info d info = Outcome.raised PyError.keyError)
    ∧ (∀ (d : Option ℚ) (rest : List (List Char)) (p : Option Int) (sb : List Nat),
      run d ((("progress=end").data) :: rest) p sb = Outcome.raised PyError.keyError)
    ∧ (∀ (d : ℚ) (info : Dict) (sv : String) (t : ℚ),
      lookup? ("out_time_ms") info = some (PyVal.str sv) →
      pyFloatOfStr? sv = some t →
      process_info (some d) info ≠ Outcome.raised PyError.keyError) := by
  refine ⟨?_, ?_, ?_⟩
  · intro d info hmiss
    simp [process_info, hmiss]
  · intro d rest p sb
    rfl
  · intro d info sv t hl hp hne
    by_cases ht : 0 < t
    · by_cases hd : d = 0
      · simp [process_info, hl, pyFloatOfVal?, hp, ht, hd] at hne
      · simp [process_info, hl, pyFloatOfVal?, hp, ht, hd] at hne
    · simp [process_info, hl, pyFloatOfVal?, hp, ht] at hne

/-- Witness for C10: a terminator-only block raises KeyError at both the
`process_info` and `run` level, and a block carrying `out_time_ms=1` does
not. -/
theorem out_time_ms_required_witness :
    process_info none [(("progress"), PyVal.str ("end"))]
      = Outcome.raised PyError.keyError
    ∧ run none ((("progress=end").data) :: []) none []
      = Outcome.raised PyError.keyError
    ∧ process_info (some 10)
        [(("out_time_ms"), PyVal.str ("1")), (("progress"), PyVal.str ("end"))]
        ≠ Outcome.raised PyError.keyError :=
  ⟨out_time_ms_required.1 none _ (by decide),
   out_time_ms_required.2.1 none [] none [],
   out_time_ms_required.2.2 10 _ ("1") 1 (by decide) (by decide)⟩

end FfmpegProgress
